import Mathlib

/-!
Verification of `polemarch/main/utils.py`: a shallow embedding of the
cache-backed `Lock`, the locking decorators (`__LockAbstractDecorator`,
`service_lock`), the exception-filtering context managers (`assertRaises`,
`raise_context`), `ModelHandlers.backend` / `import_class`, the
`Paginator.items` iterator and the `task` wrapper, together with proofs of
the specified properties.

The shared Django cache is modelled as a finite map from keys to entries.
Python `None` is representable both as a cache key (`Lock.release` calls
`cache.delete(self.id)` where `self.id` may be `None`) and as a dictionary
value, hence the pervasive `Option`.
-/

namespace Polemarch

/-! ### The shared cache

`django.core.cache.cache` as used by `Lock`: an `add`-if-absent primitive
that also records the time-to-live passed to it, and a delete-by-key
primitive.  Keys of the Python cache are arbitrary objects; `Lock` is keyed
by whatever `id` the caller passes, and `release` may be invoked with the
key `None`, so the cache is keyed by `Option K`. -/

/-- A cache entry: the payload stored by `cache.add(id, payload, timeout)`
together with the timeout (TTL, seconds) that was passed to `add`. -/
structure Entry (V : Type) where
  payload : V
  timeout : Nat
deriving DecidableEq, Repr

/-- The shared cache state: a map from (possibly-`None`) keys to entries. -/
def Cache (K V : Type) : Type := Option K → Option (Entry V)

variable {K V : Type} [DecidableEq K]

/-- `cache.add(k, payload, timeout)`: atomically add the entry if no entry
for `k` is present.  Returns whether the add happened, and the new cache
state (unchanged when an entry was already present). -/
def cacheAdd (c : Cache K V) (k : Option K) (payload : V) (timeout : Nat) :
    Bool × Cache K V :=
  match c k with
  | some _ => (false, c)
  | none => (true, fun k' => if k' = k then some ⟨payload, timeout⟩ else c k')

/-- `cache.delete(k)`: remove any entry for `k`. -/
def cacheDelete (c : Cache K V) (k : Option K) : Cache K V :=
  fun k' => if k' = k then none else c k'

/-! ### `Lock` -/

/-- The constant `Lock.TIMEOUT = 60*60*24` passed as TTL to every
`cache.add` call made by `Lock.__init__`. -/
def Lock.TIMEOUT : Nat := 60 * 60 * 24

/-- `Lock.GLOBAL` key constant. -/
def Lock.GLOBAL : String := "global-deploy"

/-- `Lock.SCHEDULER` key constant. -/
def Lock.SCHEDULER : String := "celery-beat"

/-- A `Lock` object: its single attribute `id`, which is `None` until (and
unless) an acquisition attempt succeeds, and the acquired key afterwards. -/
structure Lock (K : Type) where
  id : Option K
deriving DecidableEq, Repr

/-- Outcome of `Lock.__init__`: either a constructed lock together with the
cache state after the successful `add`, or an `AcquireLockException`
carrying the error message, together with the partially-constructed object
(whose `id` attribute was already set before the retry loop). -/
inductive InitResult (K V : Type) where
  | ok (lock : Lock K) (cache : Cache K V)
  | acquireLockException (err_msg : String) (lock : Lock K)

/-- `Lock.__init__(id, payload, repeat, err_msg)`.  The constructor sets
`self.id = None`, then loops while the elapsed time is within the repeat
window: each iteration performs one `cache.add(id, payload, self.TIMEOUT)`
attempt against the cache state observed at that instant (other processes
may have changed it between attempts), returning on success with
`self.id = id`; when the window is exhausted it raises
`AcquireLockException(err_msg)`.  The timing is abstracted into `obs`, the
list of cache states observed by the successive attempts. -/
def lockInit (obs : List (Cache K V)) (id : K) (payload : V)
    (err_msg : String) : InitResult K V :=
  match obs with
  | [] => .acquireLockException err_msg ⟨none⟩
  | c :: rest =>
    match cacheAdd c (some id) payload Lock.TIMEOUT with
    | (true, c') => .ok ⟨some id⟩ c'
    | (false, _) => lockInit rest id payload err_msg

/-- `Lock.release(self)`: `cache.delete(self.id)`. -/
def Lock.release (l : Lock K) (c : Cache K V) : Cache K V :=
  cacheDelete c l.id

/-- `Lock.__exit__` calls `self.release()`. -/
def Lock.exitContext (l : Lock K) (c : Cache K V) : Cache K V :=
  l.release c

/-- `Lock.__del__` calls `self.release()`. -/
def Lock.destructor (l : Lock K) (c : Cache K V) : Cache K V :=
  l.release c

/-! ### The lock system: concurrent acquirers against the shared cache

Several processes construct and release `Lock`s against the one shared
cache; each `cache.add` (add-if-absent) and each `cache.delete` is an
atomic step.  A system state records the cache plus every `Lock` object
that has been constructed.  Crucially, `Lock.release` is an unconditional
`cache.delete(self.id)` and never clears `self.id`, and the program calls
it repeatedly (an explicit `release()`, then `__exit__`, then `__del__`):
an instance whose owner has already released it can re-issue the delete
at any later time, even after another process has re-acquired the key. -/

/-- A constructed `Lock` instance as tracked by the system model: an
identity for the constructing process, the object's `id` attribute, and a
ghost flag recording whether its owner has invoked `release` at least
once (directly, via `__exit__` or via `__del__`).  The flag is pure
bookkeeping for the spec's phrase "unreleased Lock instance" — the
program keeps no such flag, and `release` never clears `self.id`, which
is exactly why a released instance can delete the key again. -/
structure LockObj (K : Type) where
  hid : Nat
  id : Option K
  released : Bool
deriving DecidableEq, Repr

/-- Global state: the shared cache and every `Lock` object constructed
so far. -/
structure LockSys (K V : Type) where
  cache : Cache K V
  objs : List (LockObj K)

/-- One atomic step of the lock protocol, as the code implements it:
a construction whose `cache.add` succeeds (new object with `id` set), a
construction whose window expires with every `add` failing (new object
with `id` still `None`, cache untouched), and a `release()` call by ANY
constructed object — released or not — which performs
`cache.delete(self.id)` unconditionally. -/
inductive LockStep : LockSys K V → LockSys K V → Prop where
  | acquireOk (s : LockSys K V) (hid : Nat) (k : K) (v : V) :
      s.cache (some k) = none →
      LockStep s ⟨(cacheAdd s.cache (some k) v Lock.TIMEOUT).2,
        ⟨hid, some k, false⟩ :: s.objs⟩
  | acquireFail (s : LockSys K V) (hid : Nat) (k : K) (v : V) :
      (cacheAdd s.cache (some k) v Lock.TIMEOUT).1 = false →
      LockStep s ⟨s.cache, ⟨hid, none, false⟩ :: s.objs⟩
  | releaseStep (s : LockSys K V) (before after : List (LockObj K))
      (o : LockObj K) :
      s.objs = before ++ o :: after →
      LockStep s ⟨Lock.release ⟨o.id⟩ s.cache,
        before ++ ⟨o.hid, o.id, true⟩ :: after⟩

/-- States reachable from the empty cache with no lock constructed. -/
inductive Reachable : LockSys K V → Prop where
  | init : Reachable ⟨fun _ => none, []⟩
  | step {s s' : LockSys K V} : Reachable s → LockStep s s' → Reachable s'

/-- How many unreleased `Lock` instances hold the key `k`. -/
def unreleasedHolderCount (s : LockSys K V) (k : K) : Nat :=
  s.objs.countP (fun o => decide (o.id = some k) && !o.released)

/-- The steps of the single-release discipline from the amended mutual
exclusion claim: identical to `LockStep` except that the release step may
only fire for an instance that has not released before (no stale
`cache.delete` from an already-released instance).  This is the proviso
the counterexample trace forces; the release itself is still the code's
`Lock.release`. -/
inductive DisciplinedStep : LockSys K V → LockSys K V → Prop where
  | acquireOk (s : LockSys K V) (hid : Nat) (k : K) (v : V) :
      s.cache (some k) = none →
      DisciplinedStep s ⟨(cacheAdd s.cache (some k) v Lock.TIMEOUT).2,
        ⟨hid, some k, false⟩ :: s.objs⟩
  | acquireFail (s : LockSys K V) (hid : Nat) (k : K) (v : V) :
      (cacheAdd s.cache (some k) v Lock.TIMEOUT).1 = false →
      DisciplinedStep s ⟨s.cache, ⟨hid, none, false⟩ :: s.objs⟩
  | releaseFirst (s : LockSys K V) (before after : List (LockObj K))
      (o : LockObj K) :
      s.objs = before ++ o :: after →
      o.released = false →
      DisciplinedStep s ⟨Lock.release ⟨o.id⟩ s.cache,
        before ++ ⟨o.hid, o.id, true⟩ :: after⟩

/-- States reachable under the single-release discipline. -/
inductive ReachableDisciplined : LockSys K V → Prop where
  | init : ReachableDisciplined ⟨fun _ => none, []⟩
  | step {s s' : LockSys K V} : ReachableDisciplined s →
      DisciplinedStep s s' → ReachableDisciplined s'

/-- The inductive invariant of the disciplined system: every key has at
most one unreleased holder, and a key with no cache entry has none. -/
def LockSysInv (s : LockSys K V) : Prop :=
  ∀ k : K, unreleasedHolderCount s k ≤ 1 ∧
    (s.cache (some k) = none → unreleasedHolderCount s k = 0)

/-- State after step 1 of the stale-delete interleaving: process 1 has
acquired key `0`. -/
def staleTrace1 : LockSys Nat Nat :=
  ⟨(cacheAdd (fun _ => none) (some 0) 0 Lock.TIMEOUT).2, [⟨1, some 0, false⟩]⟩

/-- Step 2: process 1 releases (first release; key `0` deleted). -/
def staleTrace2 : LockSys Nat Nat :=
  ⟨Lock.release ⟨some 0⟩ staleTrace1.cache, [⟨1, some 0, true⟩]⟩

/-- Step 3: process 2 acquires key `0` (it is free). -/
def staleTrace3 : LockSys Nat Nat :=
  ⟨(cacheAdd staleTrace2.cache (some 0) 0 Lock.TIMEOUT).2,
    [⟨2, some 0, false⟩, ⟨1, some 0, true⟩]⟩

/-- Step 4: process 1's already-released instance releases again (its
`__del__` after `__exit__`): `self.id` is still `some 0`, so the stale
`cache.delete` removes process 2's entry. -/
def staleTrace4 : LockSys Nat Nat :=
  ⟨Lock.release ⟨some 0⟩ staleTrace3.cache,
    [⟨2, some 0, false⟩, ⟨1, some 0, true⟩]⟩

/-- Step 5: process 3 acquires key `0` — its `add` succeeds because the
stale delete removed process 2's entry.  Processes 2 and 3 now both hold
key `0` unreleased. -/
def staleTrace5 : LockSys Nat Nat :=
  ⟨(cacheAdd staleTrace4.cache (some 0) 0 Lock.TIMEOUT).2,
    [⟨3, some 0, false⟩, ⟨2, some 0, false⟩, ⟨1, some 0, true⟩]⟩

/-! ### Locking decorators

`__LockAbstractDecorator.execute` wraps the call in a `Lock` when
`self._lock_key is not None`; `service_lock.execute` first sets
`self._lock_key = kwargs.get('pk', None)`.  A Python keyword-argument
dictionary is modelled as an association list whose values may be `None`
(`Option V`); `dict.get(key, None)` returns `None` both when the key is
absent and when the stored value is `None`. -/

/-- `kwargs.get(key, None)` on a keyword-argument dictionary. -/
def dictGet (d : List (String × Option V)) (key : String) : Option V :=
  match d.find? (fun p => p.1 == key) with
  | none => none
  | some p => p.2

/-- Whether a wrapped call ran under a `Lock`, and with which key. -/
inductive LockUsage (V : Type) where
  | locked (key : V)
  | unlocked
deriving DecidableEq, Repr

/-- `__LockAbstractDecorator.execute(func, *args, **kwargs)`: if
`self._lock_key is not None`, run `func` inside `with Lock(self._lock_key,
**self.kwargs)`, else run it with no lock.  Returns how the call was
locked together with the call's result. -/
def lockAbstractDecoratorExecute {A : Type} (lock_key : Option V) (result : A) :
    LockUsage V × A :=
  match lock_key with
  | some k => (.locked k, result)
  | none => (.unlocked, result)

/-- `service_lock.execute(func, *args, **kwargs)`: sets
`self._lock_key = kwargs.get('pk', None)` and then delegates to
`__LockAbstractDecorator.execute`. -/
def serviceLockExecute {A : Type} (kwargs : List (String × Option V))
    (func : List (String × Option V) → A) : LockUsage V × A :=
  lockAbstractDecoratorExecute (dictGet kwargs "pk") (func kwargs)

/-! ### `assertRaises` and `raise_context`

Python exception classes are abstracted to a type `E` together with a
Boolean subclass relation `sub` (so `issubclass(t, excepts)` for a tuple
`excepts` is `excepts.any (sub t)`).  A call either returns a value or
raises an exception of some class. -/

/-- Outcome of a Python call: a returned value or a raised exception
of the given class. -/
inductive PyResult (E A : Type) where
  | val (a : A)
  | exc (t : E)
deriving DecidableEq, Repr

/-- `assertRaises.__exit__(exc_type, exc_val, exc_tb)`:
`return exc_type is not None and not issubclass(exc_type, self._excepts)`.
Returning `true` suppresses the in-flight exception. -/
def assertRaisesExit {E : Type} (sub : E → E → Bool) (excepts : List E)
    (exc_type : Option E) : Bool :=
  match exc_type with
  | none => false
  | some t => !(excepts.any (fun cls => sub t cls))

/-- `raise_context.execute(func, *args, **kwargs)`: runs
`func(*args, **kwargs)` inside `with self.__class__(self._excepts, ...)`.
When the body returns, its value is returned (`.val (some a)`); when the
body raises and `__exit__` suppresses the exception, control falls through
to `return sys.exc_info()`, modelled as `.val none`; otherwise the
exception propagates. -/
def raiseContextExecute {E A : Type} (sub : E → E → Bool) (excepts : List E)
    (call : PyResult E A) : PyResult E (Option A) :=
  match call with
  | .val a => .val (some a)
  | .exc t =>
    if assertRaisesExit sub excepts (some t) then .val none
    else .exc t

/-! ### `import_class` and `ModelHandlers`

`import_class(path)` splits `path` at its last dot with `str.rfind` and
Python slicing, imports the module part and `getattr`s the class part.
The Python import machinery is an environment mapping a module path to
that module's attribute table (absent ⇒ `ImportError`; attribute absent ⇒
`AttributeError`).  `settings` is an environment mapping handler names to
their configuration dictionaries. -/

/-- Exceptions that can escape `ModelHandlers.backend`. -/
inductive BackendError where
  | importError
  | attributeError
  | pmException (msg : String)
  | unknownModelHandler (name : String)
deriving DecidableEq, Repr

/-- Resolve a Python index `i` against a sequence of length `n` the way a
slice bound is resolved: negative indices count from the end, then the
result is clamped into `[0, n]`. -/
def pySliceBound (n : Nat) (i : Int) : Nat :=
  let j := if i < 0 then i + n else i
  min j.toNat n

/-- Python slice `l[a:b]`. -/
def pySlice {α : Type} (l : List α) (a b : Int) : List α :=
  (l.take (pySliceBound l.length b)).drop (pySliceBound l.length a)

/-- Python `s.rfind(ch)`: the highest index of `ch` in `s`, or `-1`. -/
def pyRfind (l : List Char) (ch : Char) : Int :=
  match l.reverse.findIdx? (fun c => c == ch) with
  | none => -1
  | some i => ((l.length - 1 - i : Nat) : Int)

/-- A module's attribute table: class name to class. -/
def ModuleAttrs (C : Type) : Type := String → Option C

/-- `import_class(path)`: `m_len = path.rfind(".")`;
`class_name = path[m_len+1:len(path)]`; import `path[0:m_len]`; return
`getattr(module, class_name)`. -/
def import_class {C : Type} (modules : String → Option (ModuleAttrs C))
    (path : String) : Except BackendError C :=
  let chars := path.data
  let m_len := pyRfind chars '.'
  let class_name := String.mk (pySlice chars (m_len + 1) chars.length)
  match modules (String.mk (pySlice chars 0 m_len)) with
  | none => .error .importError
  | some attrs =>
    match attrs class_name with
    | none => .error .attributeError
    | some c => .ok c

/-- One handler's configuration dictionary: its `'BACKEND'` entry as read
by `.get('BACKEND', None)` (absent entry and stored `None` coincide). -/
structure HandlerConf where
  backendPath : Option String
deriving DecidableEq, Repr

/-- `ModelHandlers.backend(name)`.  The `try` body looks `name` up in the
configured mapping (`KeyError` when absent), reads `'BACKEND'`, raises
`PMException` when it is `None`, else imports it.  The handler clause is
written `except KeyError or ImportError:`, which Python evaluates to
`except KeyError:` — so only the lookup's `KeyError` is converted to
`UnknownModelHandlerException(name)`, while `ImportError` (and
`AttributeError`) from `import_class` propagate unconverted. -/
def ModelHandlersBackend {C : Type} (modules : String → Option (ModuleAttrs C))
    (handlers : String → Option HandlerConf) (name : String) :
    Except BackendError C :=
  match handlers name with
  | none => .error (.unknownModelHandler name)
  | some conf =>
    match conf.backendPath with
    | none => .error (.pmException "Backend is 'None'.")
    | some path => import_class modules path

/-! ### `Paginator`

`Paginator(qs, chunk_size)` delegates to Django's paginator (constructed
with default `orphans=0`, `allow_empty_first_page=True`).  `__iter__`
yields `self.page(p)` for `p` in `1..num_pages`; `items()` yields the
members of each page's `object_list` in order (tagging each with
back-references, which does not alter the yielded sequence). -/

/-- Django `Paginator.num_pages` with `orphans=0` and
`allow_empty_first_page=True`: `ceil(max(1, count) / per_page)`. -/
def num_pages (count per_page : Nat) : Nat :=
  (max 1 count + per_page - 1) / per_page

/-- Django `Paginator.page(p).object_list`: the slice
`qs[(p-1)*per_page : (p-1)*per_page + per_page]`. -/
def pageObjectList {α : Type} (qs : List α) (per_page p : Nat) : List α :=
  (qs.drop ((p - 1) * per_page)).take per_page

/-- `Paginator.items()`: concatenation, in page order, of the object lists
of pages `1` through `num_pages`. -/
def paginatorItems {α : Type} (qs : List α) (per_page : Nat) : List α :=
  ((List.range (num_pages qs.length per_page)).map
    (fun i => pageObjectList qs per_page (i + 1))).flatten

/-! ### The `task` wrapper -/

/-- The identity of a task class: its `__module__` and `__name__`. -/
structure TaskCls where
  module : String
  name : String
deriving DecidableEq, Repr

/-- The `name` injected by `task.__call__` into the `app.task`
registration keywords: `"{c.__module__}.{c.__name__}".format(c=task_cls)`. -/
def taskRegistrationName (c : TaskCls) : String :=
  c.module ++ "." ++ c.name

/-- `task.__call__(task_cls)` updates `self.kwargs["name"]` with the
derived name before registering the wrapper with `app.task`. -/
def taskCallKwargs (kwargs : List (String × String)) (c : TaskCls) :
    List (String × String) :=
  ("name", taskRegistrationName c) :: kwargs.filter (fun p => !(p.1 == "name"))

/-! ## Theorems

Supporting lemmas first, then one theorem per specified property. -/

theorem cacheAdd_fst_eq_true_iff (c : Cache K V) (k : Option K) (v : V) (t : Nat) :
    (cacheAdd c k v t).1 = true ↔ c k = none := by
  unfold cacheAdd
  cases h : c k <;> simp

theorem cacheAdd_of_absent (c : Cache K V) (k : Option K) (v : V) (t : Nat)
    (h : c k = none) :
    cacheAdd c k v t = (true, fun k' => if k' = k then some ⟨v, t⟩ else c k') := by
  unfold cacheAdd
  rw [h]

theorem cacheAdd_of_present (c : Cache K V) (k : Option K) (v : V) (t : Nat)
    (h : c k ≠ none) : cacheAdd c k v t = (false, c) := by
  unfold cacheAdd
  cases hc : c k with
  | none => exact absurd hc h
  | some e => rfl

theorem cacheAdd_snd_of_fail (c : Cache K V) (k : Option K) (v : V) (t : Nat)
    (h : (cacheAdd c k v t).1 = false) : (cacheAdd c k v t).2 = c := by
  unfold cacheAdd at h ⊢
  cases hc : c k with
  | none => rw [hc] at h; simp at h
  | some e => rfl

theorem disciplinedStep_preserves_inv {s s' : LockSys K V}
    (hstep : DisciplinedStep s s') (hinv : LockSysInv s) : LockSysInv s' := by
  cases hstep with
  | acquireOk hid k v habsent =>
    intro k'
    rw [cacheAdd_of_absent s.cache (some k) v Lock.TIMEOUT habsent]
    by_cases hkk : k' = k
    · subst hkk
      have h0 : s.objs.countP
          (fun o => decide (o.id = some k') && !o.released) = 0 :=
        (hinv k').2 habsent
      constructor
      · show List.countP _ ((⟨hid, some k', false⟩ : LockObj K) :: s.objs) ≤ 1
        rw [List.countP_cons]
        simp [h0]
      · intro hnone
        simp at hnone
    · have hq : (decide ((⟨hid, some k, false⟩ : LockObj K).id = some k')
          && !(⟨hid, some k, false⟩ : LockObj K).released) = false := by
        simp [Ne.symm hkk]
      constructor
      · show List.countP _ ((⟨hid, some k, false⟩ : LockObj K) :: s.objs) ≤ 1
        rw [List.countP_cons, hq, if_neg (by simp), Nat.add_zero]
        exact (hinv k').1
      · intro hnone
        simp only [show (some k' = some k) = False by simp [hkk], if_false]
          at hnone
        have h0 : s.objs.countP
            (fun o => decide (o.id = some k') && !o.released) = 0 :=
          (hinv k').2 hnone
        show List.countP _ ((⟨hid, some k, false⟩ : LockObj K) :: s.objs) = 0
        rw [List.countP_cons, hq, if_neg (by simp), Nat.add_zero]
        exact h0
  | acquireFail hid k v hfail =>
    intro k'
    have hq : (decide ((⟨hid, none, false⟩ : LockObj K).id = some k')
        && !(⟨hid, none, false⟩ : LockObj K).released) = false := by
      simp
    constructor
    · show List.countP _ ((⟨hid, none, false⟩ : LockObj K) :: s.objs) ≤ 1
      rw [List.countP_cons, hq, if_neg (by simp), Nat.add_zero]
      exact (hinv k').1
    · intro hnone
      show List.countP _ ((⟨hid, none, false⟩ : LockObj K) :: s.objs) = 0
      rw [List.countP_cons, hq, if_neg (by simp), Nat.add_zero]
      exact (hinv k').2 hnone
  | releaseFirst before after o hdecomp hunrel =>
    intro k'
    have hold1 : unreleasedHolderCount s k' ≤ 1 := (hinv k').1
    unfold unreleasedHolderCount at hold1
    rw [hdecomp, List.countP_append, List.countP_cons] at hold1
    have hnewq : (decide ((⟨o.hid, o.id, true⟩ : LockObj K).id = some k')
        && !(⟨o.hid, o.id, true⟩ : LockObj K).released) = false := by
      simp
    constructor
    · show List.countP _ (before ++ (⟨o.hid, o.id, true⟩ : LockObj K) :: after) ≤ 1
      rw [List.countP_append, List.countP_cons, hnewq, if_neg (by simp),
        Nat.add_zero]
      omega
    · intro hnone
      show List.countP _ (before ++ (⟨o.hid, o.id, true⟩ : LockObj K) :: after) = 0
      rw [List.countP_append, List.countP_cons, hnewq, if_neg (by simp),
        Nat.add_zero]
      by_cases hko : o.id = some k'
      · have hqo : (decide (o.id = some k') && !o.released) = true := by
          simp [hko, hunrel]
        rw [hqo, if_pos rfl] at hold1
        omega
      · have hcache : s.cache (some k') = none := by
          have heq : Lock.release ⟨o.id⟩ s.cache (some k') = s.cache (some k') := by
            unfold Lock.release cacheDelete
            simp [Ne.symm hko]
          rw [← heq]
          exact hnone
        have h0 : unreleasedHolderCount s k' = 0 := (hinv k').2 hcache
        unfold unreleasedHolderCount at h0
        rw [hdecomp, List.countP_append, List.countP_cons] at h0
        omega

theorem reachableDisciplined_inv {s : LockSys K V}
    (h : ReachableDisciplined s) : LockSysInv s := by
  induction h with
  | init =>
    intro k
    constructor
    · simp [unreleasedHolderCount]
    · intro _
      simp [unreleasedHolderCount]
  | step _ hstep ih => exact disciplinedStep_preserves_inv hstep ih

/-- Claim C1, counterexample: the claim as frozen is false of the code.
Even with the cache's add-if-absent fully atomic, the real `release` is
an unconditional repeated `cache.delete(self.id)` (`self.id` is never
cleared, and `__del__` calls `release` again after `__exit__` or an
explicit release).  The five-step interleaving — process 1 acquires key
`0`, process 1 releases, process 2 acquires key `0`, process 1's
already-released instance deletes key `0` again (removing process 2's
entry), process 3 acquires key `0` — reaches `staleTrace5`, where the
unreleased instances `⟨2, some 0, false⟩` and `⟨3, some 0, false⟩` both
hold key `0`: two unreleased `Lock` instances hold the same id in a
reachable state. -/
theorem C1_counterexample_two_unreleased_holders :
    Reachable staleTrace5
    ∧ unreleasedHolderCount staleTrace5 0 = 2
    ∧ ¬ unreleasedHolderCount staleTrace5 0 ≤ 1 := by
  refine ⟨?_, rfl, by decide⟩
  exact Reachable.step (Reachable.step (Reachable.step (Reachable.step
    (Reachable.step Reachable.init
      (LockStep.acquireOk ⟨fun _ => none, []⟩ 1 0 0 rfl))
    (LockStep.releaseStep staleTrace1 [] [] ⟨1, some 0, false⟩ rfl))
    (LockStep.acquireOk staleTrace2 2 0 0 rfl))
    (LockStep.releaseStep staleTrace3 [⟨2, some 0, false⟩] []
      ⟨1, some 0, true⟩ rfl))
    (LockStep.acquireOk staleTrace4 3 0 0 rfl)

/-- Claim C1 (amended): modelling the shared cache's add-if-absent as an
atomic step, a `Lock` construction for `id` succeeds only when
`cache.add(id, ...)` succeeds, i.e. when no entry for `id` is present —
and provided each `Lock` instance invokes `release` at most once (no
stale `cache.delete` from an already-released instance, whose `id`
attribute is never cleared), in every reachable state at most one
unreleased `Lock` instance holds a given `id`. -/
theorem C1_single_release_mutual_exclusion {s : LockSys K V}
    (h : ReachableDisciplined s) (k : K) :
    unreleasedHolderCount s k ≤ 1 :=
  (reachableDisciplined_inv h k).1

theorem C1_single_release_mutual_exclusion_witness :
    ReachableDisciplined (K := Nat) (V := Nat)
      ⟨(cacheAdd (fun _ => none) (some 0) 0 Lock.TIMEOUT).2,
        [⟨1, some 0, false⟩]⟩
    ∧ unreleasedHolderCount (K := Nat) (V := Nat)
        ⟨(cacheAdd (fun _ => none) (some 0) 0 Lock.TIMEOUT).2,
          [⟨1, some 0, false⟩]⟩ 0 ≤ 1 :=
  have hr : ReachableDisciplined (K := Nat) (V := Nat)
      ⟨(cacheAdd (fun _ => none) (some 0) 0 Lock.TIMEOUT).2,
        [⟨1, some 0, false⟩]⟩ :=
    ReachableDisciplined.step ReachableDisciplined.init
      (DisciplinedStep.acquireOk ⟨fun _ => none, []⟩ 1 0 0 rfl)
  ⟨hr, C1_single_release_mutual_exclusion hr 0⟩

/-- Claim C4: for every id, payload, repeat window (the attempts made
within it) and caller-supplied `err_msg`, if no add-if-absent attempt on
the cache succeeds within the repeat window, the `Lock` constructor raises
`AcquireLockException` carrying exactly `err_msg`, and the lock is not
acquired (`Lock.id` stays `None`). -/
theorem C4_exhausted_retries_raise (obs : List (Cache K V)) (id : K)
    (payload : V) (err_msg : String)
    (h : ∀ c ∈ obs, (cacheAdd c (some id) payload Lock.TIMEOUT).1 = false) :
    lockInit obs id payload err_msg = .acquireLockException err_msg ⟨none⟩ := by
  induction obs with
  | nil => rfl
  | cons c rest ih =>
    have hc := h c (List.mem_cons_self c rest)
    unfold lockInit
    rcases hadd : cacheAdd c (some id) payload Lock.TIMEOUT with ⟨b, c2⟩
    rw [hadd] at hc
    cases b
    · exact ih (fun c' hc' => h c' (List.mem_cons_of_mem c hc'))
    · simp at hc

theorem C4_exhausted_retries_raise_witness :
    (∀ c ∈ [fun k => if k = some 0 then some ⟨0, Lock.TIMEOUT⟩ else none],
        (cacheAdd (K := Nat) (V := Nat) c (some 0) 0 Lock.TIMEOUT).1 = false)
    ∧ lockInit [fun k => if k = some 0 then some ⟨0, Lock.TIMEOUT⟩ else none]
        (0 : Nat) (0 : Nat) "Wait until the end."
        = .acquireLockException "Wait until the end." ⟨none⟩ := by
  refine ⟨?_, C4_exhausted_retries_raise _ _ _ _ ?_⟩ <;>
  · intro c hc
    rw [List.mem_singleton] at hc
    subst hc
    rfl

/-- Claim C5: for every `Lock`, its key is released exactly once even
under repeated release calls: the first release removes the key from the
cache, and each further release — directly, via context exit (`__exit__`)
or via object destruction (`__del__`) — leaves the cache state unchanged;
release is idempotent on the cache. -/
theorem C5_release_idempotent (l : Lock K) (c : Cache K V) :
    l.release (l.release c) = l.release c
    ∧ (l.release c) l.id = none
    ∧ l.exitContext (l.release c) = l.release c
    ∧ l.destructor (l.release c) = l.release c := by
  have hidem : l.release (l.release c) = l.release c := by
    funext k'
    unfold Lock.release cacheDelete
    by_cases hk : k' = l.id <;> simp [hk]
  refine ⟨hidem, ?_, hidem, hidem⟩
  unfold Lock.release cacheDelete
  simp

/-- Claim C8: every `Lock` acquisition attempt passes a time-to-live of
exactly 24 hours (`60*60*24 = 86400` seconds) to the cache's
add-if-absent primitive, so a held lock's lifetime in the cache is
bounded by 86400 seconds: on success the stored entry's TTL is
`Lock.TIMEOUT = 86400`. -/
theorem C8_ttl_is_86400 (obs : List (Cache K V)) (id : K) (payload : V)
    (err_msg : String) (l : Lock K) (c' : Cache K V)
    (h : lockInit obs id payload err_msg = .ok l c') :
    Lock.TIMEOUT = 86400
    ∧ c' (some id) = some ⟨payload, Lock.TIMEOUT⟩
    ∧ l = ⟨some id⟩ := by
  induction obs with
  | nil => exact absurd h (by simp [lockInit])
  | cons c rest ih =>
    unfold lockInit at h
    rcases hadd : cacheAdd c (some id) payload Lock.TIMEOUT with ⟨b, c2⟩
    rw [hadd] at h
    cases b
    · exact ih h
    · have hfst : (cacheAdd c (some id) payload Lock.TIMEOUT).1 = true := by
        rw [hadd]
      have habsent : c (some id) = none :=
        (cacheAdd_fst_eq_true_iff c (some id) payload Lock.TIMEOUT).mp hfst
      have hsnd := cacheAdd_of_absent c (some id) payload Lock.TIMEOUT habsent
      rw [hadd] at hsnd
      obtain ⟨-, hc2⟩ := Prod.mk.injEq .. ▸ hsnd
      simp only [InitResult.ok.injEq] at h
      obtain ⟨hl, hc'⟩ := h
      refine ⟨rfl, ?_, hl.symm⟩
      rw [← hc', hc2]
      simp

theorem C8_ttl_is_86400_witness :
    lockInit [fun _ => none] (0 : Nat) (0 : Nat) ""
        = .ok ⟨some 0⟩ (cacheAdd (fun _ => none) (some 0) 0 Lock.TIMEOUT).2
    ∧ Lock.TIMEOUT = 86400
    ∧ (cacheAdd (K := Nat) (V := Nat) (fun _ => none) (some 0) 0
        Lock.TIMEOUT).2 (some 0) = some ⟨0, Lock.TIMEOUT⟩ := by
  have h : lockInit [fun _ => none] (0 : Nat) (0 : Nat) ""
      = .ok ⟨some 0⟩ (cacheAdd (fun _ => none) (some 0) 0 Lock.TIMEOUT).2 := rfl
  obtain ⟨ht, hc, -⟩ := C8_ttl_is_86400 [fun _ => none] 0 0 "" ⟨some 0⟩
    (cacheAdd (fun _ => none) (some 0) 0 Lock.TIMEOUT).2 h
  exact ⟨h, ht, hc⟩

/-- Claim C10: if `Lock` construction for key `id` fails with
`AcquireLockException`, the failed acquirer has not modified the cache
(every one of its failed `add` attempts left the cache unchanged), its
`id` field is still `None`, and any later release (including via
`__del__`) issues a delete for the key `None`, never for the contended
`id` held by another holder. -/
theorem C10_failed_acquire_touches_nothing (obs : List (Cache K V)) (id : K)
    (payload : V) (err_msg msg : String) (l : Lock K)
    (h : lockInit obs id payload err_msg = .acquireLockException msg l) :
    l.id = none
    ∧ (∀ c ∈ obs, (cacheAdd c (some id) payload Lock.TIMEOUT).2 = c)
    ∧ (∀ c : Cache K V, l.release c = cacheDelete c none)
    ∧ (∀ c : Cache K V, l.release c (some id) = c (some id)) := by
  have hmain : l.id = none
      ∧ ∀ c ∈ obs, (cacheAdd c (some id) payload Lock.TIMEOUT).2 = c := by
    induction obs with
    | nil =>
      simp only [lockInit, InitResult.acquireLockException.injEq] at h
      exact ⟨h.2 ▸ rfl, by intro c hc; simp at hc⟩
    | cons c rest ih =>
      unfold lockInit at h
      rcases hadd : cacheAdd c (some id) payload Lock.TIMEOUT with ⟨b, c2⟩
      rw [hadd] at h
      cases b
      · have hfst : (cacheAdd c (some id) payload Lock.TIMEOUT).1 = false := by
          rw [hadd]
        obtain ⟨hid, hrest⟩ := ih h
        refine ⟨hid, ?_⟩
        intro c' hc'
        rcases List.mem_cons.mp hc' with hc' | hc'
        · subst hc'
          exact cacheAdd_snd_of_fail _ _ _ _ hfst
        · exact hrest c' hc'
      · simp at h
  obtain ⟨hid, hobs⟩ := hmain
  refine ⟨hid, hobs, ?_, ?_⟩
  · intro c
    unfold Lock.release
    rw [hid]
  · intro c
    unfold Lock.release cacheDelete
    rw [hid]
    simp

theorem C10_failed_acquire_touches_nothing_witness :
    lockInit [fun k => if k = some 0 then some ⟨7, Lock.TIMEOUT⟩ else none]
        (0 : Nat) (7 : Nat) "locked" = .acquireLockException "locked" ⟨none⟩
    ∧ (Lock.mk (K := Nat) none).id = none := by
  have h : lockInit [fun k => if k = some 0 then some ⟨7, Lock.TIMEOUT⟩ else none]
      (0 : Nat) (7 : Nat) "locked"
      = .acquireLockException "locked" (⟨none⟩ : Lock Nat) := rfl
  obtain ⟨hid, -, -, -⟩ := C10_failed_acquire_touches_nothing
    [fun k => if k = some 0 then some ⟨7, Lock.TIMEOUT⟩ else none]
    0 7 "locked" "locked" ⟨none⟩ h
  exact ⟨h, hid⟩

/-- Claim C2 (counterexample): with configured type-set `{0}` (and the
subclass relation instantiated as equality), an exception of class `0` —
inside the set — propagates out of `raise_context.execute` instead of
being swallowed, and an exception of class `1` — outside the set — is
swallowed instead of propagating.  The claim's reading of the type-set is
inverted relative to the code. -/
theorem C2_counterexample :
    raiseContextExecute (fun a b => a == b) [0]
        (PyResult.exc 0 : PyResult Nat Nat) = PyResult.exc 0
    ∧ raiseContextExecute (fun a b => a == b) [0]
        (PyResult.exc 1 : PyResult Nat Nat) = PyResult.val none := by
  exact ⟨rfl, rfl⟩

/-- Claim C2 (amended): for every callable wrapped by `raise_context` (or
used via its context manager) configured with a type-set of exception
classes, an exception raised by the call whose type is a subclass of a
member of the configured set propagates to the caller, while exceptions
outside the set are swallowed (`__exit__` suppresses them and the wrapper
returns `sys.exc_info()` instead of propagating); a normal return is
passed through unchanged. -/
theorem C2_raise_context_filters {E A : Type} (sub : E → E → Bool)
    (excepts : List E) (t : E) (a : A) :
    raiseContextExecute sub excepts (PyResult.exc t : PyResult E A)
      = (if excepts.any (fun cls => sub t cls) then .exc t else .val none)
    ∧ raiseContextExecute sub excepts (PyResult.val a) = .val (some a) := by
  constructor
  · unfold raiseContextExecute assertRaisesExit
    cases h : excepts.any (fun cls => sub t cls) <;> simp [h]
  · rfl

/-- Claim C3 (evaluation at the failing input): the handler clause is
written `except KeyError or ImportError:`, which Python evaluates to
`except KeyError:`; hence for the configured name `"h"` whose backend path
`"missing.Backend"` does not import, `ModelHandlers.backend` lets the
`ImportError` propagate instead of raising
`UnknownModelHandlerException("h")` as the spec states. -/
theorem C3_import_error_not_converted :
    ModelHandlersBackend (C := Nat) (fun _ => none)
        (fun n => if n = "h" then some ⟨some "missing.Backend"⟩ else none) "h"
      = .error .importError
    ∧ (Except.error BackendError.importError : Except BackendError Nat)
      ≠ .error (.unknownModelHandler "h") := by
  exact ⟨rfl, by simp⟩

theorem flatten_range_chunks {α : Type} (per : Nat) :
    ∀ (k : Nat) (qs : List α), qs.length ≤ k * per →
      ((List.range k).map (fun i => (qs.drop (i * per)).take per)).flatten
        = qs := by
  intro k
  induction k with
  | zero =>
    intro qs h
    simp only [Nat.zero_mul, Nat.le_zero] at h
    simp [List.length_eq_zero.mp h]
  | succ k ih =>
    intro qs h
    rw [List.range_succ_eq_map]
    simp only [List.map_cons, List.map_map, List.flatten_cons, Nat.zero_mul,
      List.drop_zero]
    have hrw : (List.range k).map
          ((fun i => (qs.drop (i * per)).take per) ∘ Nat.succ)
        = (List.range k).map
          (fun i => ((qs.drop per).drop (i * per)).take per) := by
      apply List.map_congr_left
      intro i _
      simp only [Function.comp]
      rw [List.drop_drop, Nat.succ_mul, Nat.add_comm]
    rw [hrw]
    rw [Nat.succ_mul] at h
    have hlen : (qs.drop per).length ≤ k * per := by
      rw [List.length_drop]
      omega
    rw [ih (qs.drop per) hlen]
    exact List.take_append_drop per qs

/-- Claim C6: for every underlying item sequence and (positive) chunk
size, `Paginator.items()` yields every underlying item exactly once across
all pages and in the original order: the yielded sequence equals the
concatenation of the object lists of pages `1` through `num_pages`, which
equals the underlying sequence. -/
theorem C6_items_yields_each_once {α : Type} (qs : List α) (per : Nat)
    (hper : 0 < per) : paginatorItems qs per = qs := by
  unfold paginatorItems
  have hlen : qs.length ≤ (num_pages qs.length per) * per := by
    unfold num_pages
    rcases Nat.eq_zero_or_pos qs.length with h0 | hpos
    · rw [h0]
      exact Nat.zero_le _
    · rw [Nat.max_eq_right hpos, Nat.mul_comm]
      have hdm := Nat.div_add_mod (qs.length + per - 1) per
      have hmod := Nat.mod_lt (qs.length + per - 1) hper
      omega
  have hpages : (List.range (num_pages qs.length per)).map
        (fun i => pageObjectList qs per (i + 1))
      = (List.range (num_pages qs.length per)).map
        (fun i => (qs.drop (i * per)).take per) := by
    apply List.map_congr_left
    intro i _
    simp [pageObjectList]
  rw [hpages]
  exact flatten_range_chunks per _ qs hlen

theorem C6_items_yields_each_once_witness :
    0 < 2 ∧ paginatorItems [1, 2, 3, 4, 5] 2 = [1, 2, 3, 4, 5] :=
  ⟨by decide, C6_items_yields_each_once [1, 2, 3, 4, 5] 2 (by decide)⟩

/-- Claim C7: for every task class decorated by the task wrapper, the name
passed to the task-queue registration is the class's module path and class
name joined by a dot, and the derived name is deterministic: two
registrations of a class with the same module/class identity yield the
same name. -/
theorem C7_task_name_deterministic (c₁ c₂ : TaskCls)
    (h1 : c₁.module = c₂.module) (h2 : c₁.name = c₂.name) :
    taskRegistrationName c₁ = c₁.module ++ "." ++ c₁.name
    ∧ taskRegistrationName c₁ = taskRegistrationName c₂
    ∧ ∀ kwargs, (taskCallKwargs kwargs c₁).find? (fun p => p.1 == "name")
        = some ("name", taskRegistrationName c₁) := by
  refine ⟨rfl, ?_, ?_⟩
  · unfold taskRegistrationName
    rw [h1, h2]
  · intro kwargs
    simp [taskCallKwargs]

theorem C7_task_name_deterministic_witness :
    (TaskCls.mk "polemarch.main.tasks" "ScheduledTask").module
        = (TaskCls.mk "polemarch.main.tasks" "ScheduledTask").module
    ∧ taskRegistrationName ⟨"polemarch.main.tasks", "ScheduledTask"⟩
        = "polemarch.main.tasks" ++ "." ++ "ScheduledTask" :=
  ⟨rfl, (C7_task_name_deterministic ⟨"polemarch.main.tasks", "ScheduledTask"⟩
    ⟨"polemarch.main.tasks", "ScheduledTask"⟩ rfl rfl).1⟩

/-- Claim C9: for every call to a function wrapped by `service_lock`, a
lock is acquired if and only if the call's keyword arguments contain
`'pk'` with a non-`None` value, the lock key is exactly that `'pk'` value,
and a call without a `'pk'` keyword (or with `pk=None`) executes the
wrapped function with no lock at all. -/
theorem C9_service_lock_pk {A : Type} (kwargs : List (String × Option V))
    (func : List (String × Option V) → A) :
    (∀ v, dictGet kwargs "pk" = some v →
        serviceLockExecute kwargs func = (.locked v, func kwargs))
    ∧ (dictGet kwargs "pk" = none →
        serviceLockExecute kwargs func = (.unlocked, func kwargs)) := by
  constructor
  · intro v hv
    unfold serviceLockExecute lockAbstractDecoratorExecute
    rw [hv]
  · intro hv
    unfold serviceLockExecute lockAbstractDecoratorExecute
    rw [hv]

theorem C9_service_lock_pk_witness :
    dictGet [("pk", some (5 : Nat))] "pk" = some 5
    ∧ serviceLockExecute [("pk", some (5 : Nat))] (fun _ => (0 : Nat))
        = (.locked 5, 0)
    ∧ dictGet ([("pk", none)] : List (String × Option Nat)) "pk" = none
    ∧ serviceLockExecute ([("pk", none)] : List (String × Option Nat))
        (fun _ => (0 : Nat)) = (.unlocked, 0) :=
  ⟨rfl, (C9_service_lock_pk [("pk", some 5)] (fun _ => 0)).1 5 rfl,
    rfl, (C9_service_lock_pk [("pk", none)] (fun _ => 0)).2 rfl⟩

end Polemarch
